import Mathlib

/-!
Verification of the Superteam Vietnam bot's two self-contained logic cores
against their natural-language specification: the confidence scorer and
query gating of `app/core/rag.py`, the skill-based member search and
pagination of `app/bots/telegram_bot.py`, and the draft lifecycle of
`publish_draft` in `app/bots/twitter_bot.py`.

Floating-point values of the Python source are modelled as real numbers;
`np.linspace` and the weighted mean are translated literally.
-/

namespace SuperteamVN

/-! ### Data model: members and skill matches (`telegram_bot.py`) -/

/-- A member record, as loaded from `data/members.json`. -/
structure Member where
  name : String
  skills : List String
  projects : List String
  availability : Bool
  telegram_id : Option String
  twitter_handle : Option String
deriving DecidableEq, Repr

/-- One entry of the `matches` list built by `find_member` /
`show_more_members`: the member, the set of matching skills (represented as
a duplicate-free list of lower-cased skills), and its cardinality. -/
structure MatchResult where
  member : Member
  matching_skills : List String
  match_count : Nat
deriving DecidableEq, Repr

/-- Python's `str.lower()`, modelled character-wise over the string's
character list (the skills and search terms of this program are ASCII, for
which the two agree). -/
def pyLower (s : String) : String := String.mk (s.data.map Char.toLower)

/-- Model of `set(search_skills) & set(member_skills)` from the source, with both sides
lower-cased by the caller for `member_skills` (line 154) and represented as
the duplicate-free list of the member's lower-cased skills that occur among
the search skills. -/
def matchingSkills (searchSkills : List String) (m : Member) : List String :=
  ((m.skills.map pyLower).dedup).filter (fun s => searchSkills.contains s)

/-- The `matches` list built by the loop at lines 153-162 / 391-400 of
`telegram_bot.py`, for an already-normalized search-skill list (this is what
`show_more_members` receives from the callback data). -/
def findMatchesRaw (db : List Member) (searchSkills : List String) : List MatchResult :=
  db.filterMap (fun m =>
    let ms := matchingSkills searchSkills m
    if ms = [] then none else some ⟨m, ms, ms.length⟩)

/-- The `matches` list of `find_member`, which first lower-cases the
user-supplied skill arguments (line 150). -/
def findMatches (db : List Member) (args : List String) : List MatchResult :=
  findMatchesRaw db (args.map pyLower)

/-- Sort order used by the descending in-place sort on match_count (with
reverse=True): `a` may precede `b` iff the match count of `a` is at least
that of `b`. -/
def matchLE (a b : MatchResult) : Prop := b.match_count ≤ a.match_count

instance : DecidableRel matchLE := fun a b => Nat.decLe b.match_count a.match_count

instance : IsTotal MatchResult matchLE := ⟨fun a b => Nat.le_total b.match_count a.match_count⟩

instance : IsTrans MatchResult matchLE :=
  ⟨fun _ _ _ hab hbc => Nat.le_trans hbc hab⟩

/-- Python's `list.sort` is a stable sort; a stable descending sort by
`match_count` is insertion sort with `matchLE` (ties are inserted before,
keeping original order). -/
def sortMatches (l : List MatchResult) : List MatchResult := l.insertionSort matchLE

/-- Lexicographic comparison of two character lists by code point: the
order Python's `sorted` uses on strings. -/
def charListLE : List Char → List Char → Bool
  | [], _ => true
  | _ :: _, [] => false
  | a :: as, b :: bs => if a < b then true else if b < a then false else charListLE as bs

/-- Python's string ordering (lexicographic by code point), as a relation. -/
def strLE (a b : String) : Prop := charListLE a.data b.data = true

instance : DecidableRel strLE := fun a b => decEq (charListLE a.data b.data) true

instance : IsTotal String strLE :=
  ⟨fun x y => by
    unfold strLE
    have H : ∀ as bs : List Char, charListLE as bs = true ∨ charListLE bs as = true := by
      intro as
      induction as with
      | nil => intro bs; left; rfl
      | cons a as ih =>
        intro bs
        cases bs with
        | nil => right; rfl
        | cons b bs =>
          by_cases h1 : a < b
          · left; simp [charListLE, h1]
          · by_cases h2 : b < a
            · right; simp [charListLE, h2]
            · have h3 : a = b := le_antisymm (not_lt.mp h2) (not_lt.mp h1)
              subst h3
              rcases ih bs with h | h
              · left; simpa [charListLE, lt_irrefl] using h
              · right; simpa [charListLE, lt_irrefl] using h
    exact H x.data y.data⟩

instance : IsTrans String strLE :=
  ⟨fun x y z hxy hyz => by
    unfold strLE at hxy hyz ⊢
    have H : ∀ as bs cs : List Char, charListLE as bs = true → charListLE bs cs = true →
        charListLE as cs = true := by
      intro as
      induction as with
      | nil => intro bs cs _ _; rfl
      | cons a as ih =>
        intro bs cs hab hbc
        cases bs with
        | nil => simp [charListLE] at hab
        | cons b bs =>
          cases cs with
          | nil => simp [charListLE] at hbc
          | cons c cs =>
            by_cases h1 : a < b
            · by_cases h2 : b < c
              · simp [charListLE, lt_trans h1 h2]
              · by_cases h3 : c < b
                · simp [charListLE, not_lt_of_lt h3, h3] at hbc
                · have h4 : b = c := le_antisymm (not_lt.mp h3) (not_lt.mp h2)
                  subst h4
                  simp [charListLE, h1]
            · by_cases h2 : b < a
              · simp [charListLE, h1, h2] at hab
              · have h3 : a = b := le_antisymm (not_lt.mp h2) (not_lt.mp h1)
                subst h3
                simp [charListLE, lt_irrefl] at hab
                by_cases h4 : a < c
                · simp [charListLE, h4]
                · by_cases h5 : c < a
                  · simp [charListLE, not_lt_of_lt h5, h5] at hbc
                  · have h6 : a = c := le_antisymm (not_lt.mp h5) (not_lt.mp h4)
                    subst h6
                    simp [charListLE, lt_irrefl] at hbc ⊢
                    exact ih bs cs hab hbc
    exact H x.data y.data z.data hxy hyz⟩

/-- The `all_skills` fallback of lines 164-172: the union of all members'
skills, lower-cased (`skill.lower()`), deduplicated (a Python `set`), and
sorted alphabetically (`sorted(all_skills)`). -/
def allSkillsSorted (db : List Member) : List String :=
  ((db.flatMap fun m => m.skills.map pyLower).dedup).insertionSort strLE

/-- The observable outcome of `find_member` (after the argument guard):
either the no-match fallback listing all available skills, or the first
page of ranked matches together with whether a "Show More Members" button
is attached (lines 192-197: attached iff more than 3 matches). -/
inductive FindResult where
  | noMatches (allSkills : List String)
  | page (entries : List (Nat × MatchResult)) (hasMoreButton : Bool)
deriving DecidableEq, Repr

/-- Embedding of `find_member` of `telegram_bot.py` (lines 150-200), for a non-empty
argument list: build matches, fall back to the skill list if none, else
sort and render `enumerate(matches[:3], 1)` with a "more" button iff
`len(matches) > 3`. -/
def find_member (db : List Member) (args : List String) : FindResult :=
  let found := findMatches db args
  if found = [] then
    .noMatches (allSkillsSorted db)
  else
    let sorted := sortMatches found
    .page (List.enumFrom 1 (sorted.take 3)) (decide (3 < sorted.length))

/-- The second page produced by `show_more_members`: the reply is sent with
no inline keyboard (line 420), hence `offersMore` is always `false` in the
embedding. -/
structure MorePage where
  entries : List (Nat × MatchResult)
  offersMore : Bool
deriving DecidableEq, Repr

/-- Embedding of `show_more_members` of `telegram_bot.py` (lines 388-420): recompute and
sort the matches for the (already lower-cased) skills from the callback
data; reply "No additional members to show." when at most 3 matches exist
(modelled as `none`), else render `enumerate(matches[3:6], 4)`. -/
def show_more_members (db : List Member) (skills : List String) : Option MorePage :=
  let sorted := sortMatches (findMatchesRaw db skills)
  if sorted.length ≤ 3 then none
  else some ⟨List.enumFrom 4 ((sorted.drop 3).take 3), false⟩

/-! ### Case-change invariance apparatus (for the case-insensitivity claim) -/

/-- Replace a member's skills by their lower-cased forms, keeping every
other field. -/
def Member.lowerSkills (m : Member) : Member :=
  { m with skills := m.skills.map pyLower }

/-- Normalize a match result by lower-casing the skills stored inside its
member record (the rest of a match result is already lower-cased). -/
def MatchResult.normalize (mr : MatchResult) : MatchResult :=
  { mr with member := mr.member.lowerSkills }

/-- Normalize a `find_member` outcome by lower-casing the skill casing
stored inside the returned member records. -/
def FindResult.normalize : FindResult → FindResult
  | .noMatches s => .noMatches s
  | .page entries b => .page (entries.map fun e => (e.1, e.2.normalize)) b

/-- Two member records that differ at most in the letter case of their
skills. -/
def caseVariant (m₁ m₂ : Member) : Prop :=
  m₁.name = m₂.name ∧ m₁.skills.map pyLower = m₂.skills.map pyLower ∧
    m₁.projects = m₂.projects ∧ m₁.availability = m₂.availability ∧
    m₁.telegram_id = m₂.telegram_id ∧ m₁.twitter_handle = m₂.twitter_handle

/-! ### Confidence scorer and query gating (`rag.py`) -/

/-- Model of `np.linspace a b n` with the default `endpoint=True`: `n` evenly spaced
values from `a` to `b`; for `n = 1` numpy returns just `[a]`. -/
noncomputable def linspace (a b : ℝ) (n : ℕ) : List ℝ :=
  if n = 1 then [a]
  else (List.range n).map (fun i : ℕ => a + (b - a) * (i : ℝ) / ((n : ℝ) - 1))

/-- Embedding of `_calculate_confidence` of `rag.py` (lines 197-209): `0.0` on an empty
list, otherwise the mean of the similarity scores multiplied element-wise
by the weights `np.exp(np.linspace(-1, 0, len(similarities)))`. -/
noncomputable def calculateConfidence (similarities : List ℝ) : ℝ :=
  if similarities = [] then 0
  else
    let weights := (linspace (-1) 0 similarities.length).map Real.exp
    let weighted := similarities.zipWith (· * ·) weights
    weighted.sum / similarities.length

/-- The weight the spec assigns to index `i` of `n` scores, written out:
`exp(-1 + i/(n-1))` for `n ≥ 2`, and `exp(-1)` for the single score when
`n = 1` (numpy's `linspace(-1, 0, 1)` is `[-1]`, not `[0]`). -/
noncomputable def specWeight (n i : ℕ) : ℝ :=
  if n = 1 then Real.exp (-1) else Real.exp (-1 + i / ((n : ℝ) - 1))

/-- The canned answer of `query` when the vector search returns nothing
(lines 225-229 of `rag.py`). -/
def noInfoAnswer : String :=
  "I don\x27t have enough information to answer this question accurately."

/-- The canned answer of `query` when the confidence is below the
threshold (lines 238-242 of `rag.py`). -/
def notConfidentAnswer : String :=
  "While I have some information, I\x27m not confident enough to provide an accurate answer to this question."

/-- The default `confidence_threshold` of `EnhancedRAGSystem.query`
(line 211 of `rag.py`). -/
noncomputable def queryDefaultThreshold : ℝ := 0.6

/-- The `confidence_threshold` passed by
`ContentAdvisor.optimize_content` (line 76 of `content_advisor.py`). -/
noncomputable def optimizeContentThreshold : ℝ := 0.8

/-- The observable outcome of `EnhancedRAGSystem.query`: the returned
answer and confidence, plus whether the generative LLM chain was run. -/
structure QueryResult where
  answer : String
  confidence : ℝ
  usedLLM : Bool

/-- Model of the join of the page contents with blank lines (line 245). -/
def joinContext (docs : List String) : String :=
  String.intercalate (String.mk [Char.ofNat 10, Char.ofNat 10]) docs

/-- Embedding of `EnhancedRAGSystem.query` (lines 211-256 of `rag.py`), given the
documents and scores returned by the vector search and the LLM chain as an
oracle `generate` from the combined context to an answer. -/
noncomputable def queryModel (docsAndScores : List (String × ℝ))
    (confidenceThreshold : ℝ) (generate : String → String) : QueryResult :=
  if docsAndScores = [] then ⟨noInfoAnswer, 0, false⟩
  else
    let confidence := calculateConfidence (docsAndScores.map Prod.snd)
    if confidence < confidenceThreshold then ⟨notConfidentAnswer, confidence, false⟩
    else ⟨generate (joinContext (docsAndScores.map Prod.fst)), confidence, true⟩

/-! ### Tweet draft publication (`twitter_bot.py`) -/

/-- The fields of a stored draft that `publish_draft` reads. -/
structure Draft where
  content : String
  version : Nat
  engagement_score : Int

/-- The in-memory draft store `self.draft_tweets`, a dict keyed by user
id. -/
def DraftStore : Type := String → Option Draft

/-- Model of the dict deletion `del self.draft_tweets[user_id]`. -/
def deleteDraft (store : DraftStore) (u : String) : DraftStore :=
  fun x => if x = u then none else store x

/-- Outcome of the `self.client.update_status(content)` call: a tweet id,
a `tweepy` API error (caught by the inner handler), or any other
exception (which propagates to the outer handler). -/
inductive PostOutcome where
  | posted (tweetId : Nat)
  | apiError (msg : String)
  | raised

/-- The effectful events `publish_draft` depends on: whether the
pre-publish `optimize_tweet` call reported success, the outcome of the
tweet-API call, and whether the performance-tracking step raised. -/
structure PublishEnv where
  finalCheckSuccess : Bool
  postOutcome : PostOutcome
  trackRaised : Bool

/-- The dictionary `publish_draft` returns, restricted to the fields the
claims mention. -/
structure PublishResult where
  status : String
  message : String
  content : Option String
  tweetId : Option Nat

/-- Embedding of `TwitterManager.publish_draft` (lines 247-305) as a
state transition on the draft store.  Note that when the pre-publish
`optimize_tweet` call reports success, line 263 reads
`final_check["metrics"]`, a key the success dictionary of `optimize_tweet`
does not contain; the resulting `KeyError` is caught by the outer handler,
which returns the generic error without touching the store. -/
def publish_draft (store : DraftStore) (user_id : String) (clientPresent : Bool)
    (env : PublishEnv) : PublishResult × DraftStore :=
  match store user_id with
  | none => (⟨"error", "No draft found", none, none⟩, store)
  | some draft =>
    if clientPresent then
      if env.finalCheckSuccess then
        (⟨"error", "Failed to publish tweet", none, none⟩, store)
      else
        match env.postOutcome with
        | .posted tid =>
          if env.trackRaised then
            (⟨"error", "Failed to publish tweet", none, none⟩, store)
          else
            (⟨"success", "Tweet published successfully", some draft.content, some tid⟩,
              deleteDraft store user_id)
        | .apiError m =>
          (⟨"error", "Failed to publish tweet: " ++ m, none, none⟩, store)
        | .raised => (⟨"error", "Failed to publish tweet", none, none⟩, store)
    else
      (⟨"success", "Tweet published (SIMULATION MODE)", some draft.content, none⟩,
        deleteDraft store user_id)

/-! ### Concrete fixtures used by the witnesses and examples -/

/-- The roster of testable property 5 of the spec. -/
def exDb : List Member :=
  [⟨"A", ["Rust", "DeFi"], [], true, none, none⟩,
   ⟨"B", ["rust"], [], true, none, none⟩,
   ⟨"C", ["Go"], [], true, none, none⟩]

/-- A roster of five members all matching the skill `"x"` (testable
property 6 of the spec). -/
def fiveDb : List Member :=
  [⟨"M1", ["x"], [], true, none, none⟩, ⟨"M2", ["x"], [], true, none, none⟩,
   ⟨"M3", ["x"], [], true, none, none⟩, ⟨"M4", ["x"], [], true, none, none⟩,
   ⟨"M5", ["x"], [], true, none, none⟩]

/-! ### Helper lemmas about `linspace` and the confidence scorer -/

theorem length_linspace (a b : ℝ) (n : ℕ) : (linspace a b n).length = n := by
  unfold linspace
  split
  · simp_all
  · simp

theorem linspace_getElem (a b : ℝ) {n i : ℕ} (hn : n ≠ 1)
    (h : i < (linspace a b n).length) :
    (linspace a b n)[i] = a + (b - a) * i / ((n : ℝ) - 1) := by
  simp [linspace, hn]

theorem linspace_getElem_nonpos {n i : ℕ} (h : i < (linspace (-1 : ℝ) 0 n).length) :
    (linspace (-1 : ℝ) 0 n)[i] ≤ 0 := by
  have hi : i < n := by rwa [length_linspace] at h
  by_cases hn : n = 1
  · subst hn
    have hi0 : i = 0 := by omega
    subst hi0
    simp [linspace]
  · rw [linspace_getElem (-1) 0 hn h]
    have hn2 : 2 ≤ n := by omega
    have hpos : (0 : ℝ) < (n : ℝ) - 1 := by
      have : (2 : ℝ) ≤ (n : ℝ) := by exact_mod_cast hn2
      linarith
    have hle : (i : ℝ) ≤ (n : ℝ) - 1 := by
      have : (i : ℝ) + 1 ≤ (n : ℝ) := by exact_mod_cast hi
      linarith
    have hdiv : (i : ℝ) / ((n : ℝ) - 1) ≤ 1 := (div_le_one hpos).mpr hle
    have heq : (-1 : ℝ) + (0 - -1) * (i : ℝ) / ((n : ℝ) - 1) =
        -1 + (i : ℝ) / ((n : ℝ) - 1) := by ring
    rw [heq]
    linarith

theorem calculateConfidence_eq_rangeSum (sims : List ℝ) (h : sims ≠ []) :
    calculateConfidence sims =
      ((List.range sims.length).map fun i =>
        sims.getD i 0 * specWeight sims.length i).sum / sims.length := by
  unfold calculateConfidence
  rw [if_neg h]
  dsimp only
  congr 2
  apply List.ext_getElem
  · simp [length_linspace]
  · intro i h₁ h₂
    have hi : i < sims.length := by
      simpa [length_linspace] using h₁
    have hw : i < ((linspace (-1 : ℝ) 0 sims.length).map Real.exp).length := by
      simpa [length_linspace] using hi
    rw [List.getElem_zipWith, List.getElem_map, List.getElem_map, List.getElem_range,
      List.getD_eq_getElem sims 0 hi]
    congr 1
    unfold specWeight
    by_cases hn : sims.length = 1
    · have hi0 : i = 0 := by omega
      subst hi0
      rw [if_pos hn]
      congr 1
      simp [linspace, hn]
    · rw [if_neg hn]
      have := linspace_getElem (-1 : ℝ) 0 hn (by simpa [length_linspace] using hi)
      rw [this]
      ring_nf

/-! ### Claims about the confidence scorer -/

/-- C9: for every single-element similarity list `[s]`, the confidence
scorer returns exactly `s * exp(-1)`. -/
theorem confidence_singleton (s : ℝ) : calculateConfidence [s] = s * Real.exp (-1) := by
  simp [calculateConfidence, linspace]

/-- C8: the confidence scorer applied to an empty similarity list returns
exactly `0.0` (a defined case), and when the vector search returns no
documents the query operation returns confidence `0.0` with the canned
"not enough information" answer, never invoking the LLM. -/
theorem confidence_empty_and_no_docs (threshold : ℝ) (generate : String → String) :
    calculateConfidence [] = 0 ∧
      queryModel [] threshold generate = ⟨noInfoAnswer, 0, false⟩ := by
  constructor
  · simp [calculateConfidence]
  · simp [queryModel]

/-- C1 counterexample: for the single-element list `[1]` the code returns
`exp(-1)`, not `1`; so the claim's "the last element gets weight
`exp(0) = 1`" fails for `n = 1` (numpy's `linspace(-1, 0, 1)` is `[-1]`). -/
theorem confidence_last_weight_not_one_at_singleton :
    calculateConfidence [1] = Real.exp (-1) ∧ Real.exp (-1) ≠ 1 := by
  constructor
  · simp [calculateConfidence, linspace]
  · exact ne_of_lt (Real.exp_lt_one_iff.mpr (by norm_num))

/-- C1 (amended): for every non-empty list of `n` similarity scores the
confidence is the arithmetic mean of `similarity_i * w_i` with
`w_i = exp(linspace(-1, 0, n))_i`; the weights strictly increase with the
index, the first weight is `exp(-1)`, and the last weight is `exp(0) = 1`
when `n ≥ 2` — while for `n = 1` the single weight is `exp(-1) ≠ 1`. -/
theorem confidence_weighted_mean (sims : List ℝ) (h : sims ≠ []) :
    calculateConfidence sims =
      ((List.range sims.length).map fun i =>
        sims.getD i 0 * specWeight sims.length i).sum / sims.length
    ∧ (∀ i j : ℕ, i < j → j < sims.length →
        specWeight sims.length i < specWeight sims.length j)
    ∧ specWeight sims.length 0 = Real.exp (-1)
    ∧ (2 ≤ sims.length → specWeight sims.length (sims.length - 1) = 1)
    ∧ (sims.length = 1 →
        specWeight sims.length (sims.length - 1) = Real.exp (-1) ∧ Real.exp (-1) ≠ 1) := by
  refine ⟨calculateConfidence_eq_rangeSum sims h, ?_, ?_, ?_, ?_⟩
  · intro i j hij hj
    have hn2 : 2 ≤ sims.length := by omega
    have hn : sims.length ≠ 1 := by omega
    unfold specWeight
    rw [if_neg hn, if_neg hn]
    apply Real.exp_lt_exp.mpr
    have hpos : (0 : ℝ) < (sims.length : ℝ) - 1 := by
      have : (2 : ℝ) ≤ (sims.length : ℝ) := by exact_mod_cast hn2
      linarith
    have hij2 : (i : ℝ) < (j : ℝ) := by exact_mod_cast hij
    have hq : (i : ℝ) / ((sims.length : ℝ) - 1) < (j : ℝ) / ((sims.length : ℝ) - 1) := by
      gcongr
    linarith
  · unfold specWeight
    by_cases hn : sims.length = 1
    · rw [if_pos hn]
    · rw [if_neg hn]
      norm_num
  · intro hn2
    unfold specWeight
    rw [if_neg (by omega)]
    have h1 : 1 ≤ sims.length := by omega
    have hcast : ((sims.length - 1 : ℕ) : ℝ) = (sims.length : ℝ) - 1 := by
      rw [Nat.cast_sub h1, Nat.cast_one]
    rw [hcast]
    have hpos : (sims.length : ℝ) - 1 ≠ 0 := by
      have : (2 : ℝ) ≤ (sims.length : ℝ) := by exact_mod_cast hn2
      linarith
    rw [div_self hpos]
    norm_num
  · intro h1
    constructor
    · unfold specWeight
      rw [if_pos h1]
    · exact ne_of_lt (Real.exp_lt_one_iff.mpr (by norm_num))

/-- Witness for C1 (amended) at the concrete list `[0, 0]`. -/
theorem confidence_weighted_mean_witness :
    (([(0 : ℝ), 0]) ≠ [])
    ∧ (calculateConfidence [(0 : ℝ), 0] =
        ((List.range ([(0 : ℝ), 0]).length).map fun i =>
          ([(0 : ℝ), 0]).getD i 0 * specWeight ([(0 : ℝ), 0]).length i).sum /
            ([(0 : ℝ), 0]).length
      ∧ (∀ i j : ℕ, i < j → j < ([(0 : ℝ), 0]).length →
          specWeight ([(0 : ℝ), 0]).length i < specWeight ([(0 : ℝ), 0]).length j)
      ∧ specWeight ([(0 : ℝ), 0]).length 0 = Real.exp (-1)
      ∧ (2 ≤ ([(0 : ℝ), 0]).length →
          specWeight ([(0 : ℝ), 0]).length (([(0 : ℝ), 0]).length - 1) = 1)
      ∧ (([(0 : ℝ), 0]).length = 1 →
          specWeight ([(0 : ℝ), 0]).length (([(0 : ℝ), 0]).length - 1) = Real.exp (-1)
          ∧ Real.exp (-1) ≠ 1)) :=
  ⟨by simp, confidence_weighted_mean [0, 0] (by simp)⟩

/-- C2 counterexample: the confidence is not always in `[0, 1]`; on the
similarity list `[-1]` the code returns `-exp(-1) < 0`. -/
theorem confidence_below_zero_on_negative_score :
    calculateConfidence [-1] < 0 := by
  have h : calculateConfidence [(-1 : ℝ)] = -Real.exp (-1) := by
    simp [calculateConfidence, linspace]
  rw [h]
  have := Real.exp_pos (-1)
  linarith

/-- C2 (amended): whenever every similarity score lies in `[0, 1]`, the
confidence lies in `[0, 1]`; in general the output is unbounded. -/
theorem confidence_unit_interval (sims : List ℝ) (h : ∀ s ∈ sims, 0 ≤ s ∧ s ≤ 1) :
    0 ≤ calculateConfidence sims ∧ calculateConfidence sims ≤ 1 := by
  by_cases hs : sims = []
  · subst hs
    simp [calculateConfidence]
  · have hlpos : 0 < sims.length := List.length_pos.mpr hs
    unfold calculateConfidence
    rw [if_neg hs]
    dsimp only
    have hbound : ∀ x ∈ List.zipWith (· * ·) sims
        ((linspace (-1) 0 sims.length).map Real.exp), 0 ≤ x ∧ x ≤ 1 := by
      intro x hx
      obtain ⟨i, hi, rfl⟩ := List.mem_iff_getElem.mp hx
      rw [List.getElem_zipWith]
      have hi2 : i < sims.length := by
        simp only [List.length_zipWith, List.length_map, length_linspace, min_self] at hi
        exact hi
      have hsim := h (sims[i]) (List.getElem_mem hi2)
      have hiw : i < ((linspace (-1 : ℝ) 0 sims.length).map Real.exp).length := by
        simp only [List.length_map, length_linspace]
        exact hi2
      have hil : i < (linspace (-1 : ℝ) 0 sims.length).length := by
        rw [length_linspace]
        exact hi2
      rw [List.getElem_map]
      have hexp_pos := Real.exp_pos ((linspace (-1 : ℝ) 0 sims.length)[i])
      have hexp_le : Real.exp ((linspace (-1 : ℝ) 0 sims.length)[i]) ≤ 1 :=
        Real.exp_le_one_iff.mpr (linspace_getElem_nonpos _)
      exact ⟨mul_nonneg hsim.1 hexp_pos.le, mul_le_one₀ hsim.2 hexp_pos.le hexp_le⟩
    constructor
    · exact div_nonneg (List.sum_nonneg fun x hx => (hbound x hx).1) (Nat.cast_nonneg _)
    · rw [div_le_one (by exact_mod_cast hlpos)]
      have hsum := List.sum_le_card_nsmul
        (List.zipWith (· * ·) sims ((linspace (-1) 0 sims.length).map Real.exp)) 1
        (fun x hx => (hbound x hx).2)
      rw [nsmul_eq_mul, mul_one] at hsum
      calc (List.zipWith (· * ·) sims ((linspace (-1) 0 sims.length).map Real.exp)).sum
          ≤ ((List.zipWith (· * ·) sims
              ((linspace (-1) 0 sims.length).map Real.exp)).length : ℝ) := hsum
        _ = (sims.length : ℝ) := by
            simp [List.length_zipWith, length_linspace]

/-- Witness for C2 (amended) at the concrete list `[1]`. -/
theorem confidence_unit_interval_witness :
    (∀ s ∈ ([(1 : ℝ)]), 0 ≤ s ∧ s ≤ 1)
    ∧ (0 ≤ calculateConfidence [(1 : ℝ)] ∧ calculateConfidence [(1 : ℝ)] ≤ 1) :=
  ⟨by norm_num, confidence_unit_interval [1] (by norm_num)⟩

/-! ### Claim about the confidence gating of `query` -/

/-- C3: when the computed confidence is strictly below the caller's
threshold, `query` returns the canned "not confident enough" answer with
that confidence and does not invoke the generative LLM step; when the
confidence is at least the threshold it generates an answer from the
retrieved context.  The default threshold of `query` is `0.6`, and the
content-optimization call site passes `0.8`. -/
theorem query_confidence_gating (docs : List (String × ℝ)) (threshold : ℝ)
    (generate : String → String) (h : docs ≠ []) :
    (calculateConfidence (docs.map Prod.snd) < threshold →
      queryModel docs threshold generate =
        ⟨notConfidentAnswer, calculateConfidence (docs.map Prod.snd), false⟩)
    ∧ (threshold ≤ calculateConfidence (docs.map Prod.snd) →
      queryModel docs threshold generate =
        ⟨generate (joinContext (docs.map Prod.fst)),
          calculateConfidence (docs.map Prod.snd), true⟩)
    ∧ queryDefaultThreshold = 0.6 ∧ optimizeContentThreshold = 0.8 := by
  refine ⟨?_, ?_, rfl, rfl⟩
  · intro hlt
    unfold queryModel
    rw [if_neg h]
    dsimp only
    rw [if_pos hlt]
  · intro hge
    unfold queryModel
    rw [if_neg h]
    dsimp only
    rw [if_neg (not_lt.mpr hge)]

/-- Witness for C3 at one document with score `0` and the default
threshold. -/
theorem query_confidence_gating_witness :
    (([(("d", (0 : ℝ)))] : List (String × ℝ)) ≠ [])
    ∧ ((calculateConfidence (([(("d", (0 : ℝ)))] : List (String × ℝ)).map Prod.snd) <
          queryDefaultThreshold →
        queryModel [("d", (0 : ℝ))] queryDefaultThreshold id =
          ⟨notConfidentAnswer,
            calculateConfidence (([(("d", (0 : ℝ)))] : List (String × ℝ)).map Prod.snd),
            false⟩)
      ∧ (queryDefaultThreshold ≤
            calculateConfidence (([(("d", (0 : ℝ)))] : List (String × ℝ)).map Prod.snd) →
        queryModel [("d", (0 : ℝ))] queryDefaultThreshold id =
          ⟨id (joinContext (([(("d", (0 : ℝ)))] : List (String × ℝ)).map Prod.fst)),
            calculateConfidence (([(("d", (0 : ℝ)))] : List (String × ℝ)).map Prod.snd),
            true⟩)
      ∧ queryDefaultThreshold = 0.6 ∧ optimizeContentThreshold = 0.8) :=
  ⟨by simp, query_confidence_gating [("d", 0)] queryDefaultThreshold id (by simp)⟩

/-! ### Claim about the draft lifecycle of `publish_draft` -/

/-- C10: `publish_draft` removes the user's draft exactly on the paths that
return status `success`; every `error` path (no draft, a failing
pre-publish optimization lookup, a tweet-API error, or any other raised
exception) leaves the draft store unchanged. -/
theorem publish_draft_store_transition (store : DraftStore) (u : String)
    (clientPresent : Bool) (env : PublishEnv) :
    ((publish_draft store u clientPresent env).1.status = "success" ∨
      (publish_draft store u clientPresent env).1.status = "error")
    ∧ (publish_draft store u clientPresent env).2 =
        (if (publish_draft store u clientPresent env).1.status = "success"
          then deleteDraft store u else store)
    ∧ ((publish_draft store u clientPresent env).1.status = "success" →
        (store u).isSome) := by
  obtain ⟨fc, po, tr⟩ := env
  unfold publish_draft
  cases hu : store u with
  | none => simp
  | some d =>
    cases clientPresent with
    | false => simp [hu]
    | true =>
      cases fc with
      | true => simp
      | false =>
        cases po with
        | posted tid =>
          cases tr with
          | true => simp
          | false => simp [hu]
        | apiError m => simp
        | raised => simp

/-- Witness for C10 at a concrete one-draft store published in simulation
mode. -/
theorem publish_draft_store_transition_witness :
    ((publish_draft (fun x => if x = "u" then some ⟨"c", 1, 0⟩ else none) "u" false
        ⟨false, .raised, false⟩).1.status = "success" ∨
      (publish_draft (fun x => if x = "u" then some ⟨"c", 1, 0⟩ else none) "u" false
        ⟨false, .raised, false⟩).1.status = "error")
    ∧ (publish_draft (fun x => if x = "u" then some ⟨"c", 1, 0⟩ else none) "u" false
        ⟨false, .raised, false⟩).2 =
        (if (publish_draft (fun x => if x = "u" then some ⟨"c", 1, 0⟩ else none) "u" false
            ⟨false, .raised, false⟩).1.status = "success"
          then deleteDraft (fun x => if x = "u" then some ⟨"c", 1, 0⟩ else none) "u"
          else (fun x => if x = "u" then some ⟨"c", 1, 0⟩ else none))
    ∧ ((publish_draft (fun x => if x = "u" then some ⟨"c", 1, 0⟩ else none) "u" false
        ⟨false, .raised, false⟩).1.status = "success" →
        ((fun x : String => if x = "u" then some (⟨"c", 1, 0⟩ : Draft) else none) "u").isSome) :=
  publish_draft_store_transition (fun x => if x = "u" then some ⟨"c", 1, 0⟩ else none) "u"
    false ⟨false, .raised, false⟩

/-! ### Claims about the skill matcher -/

/-- C4: the member ranking is a stable sort by `match_count` descending:
the sorted list is pairwise non-increasing in `match_count`, members with
equal `match_count` keep their original roster order (the subsequence at
each fixed count is unchanged), and on the roster
`[A : Rust, DeFi; B : rust; C : Go]` with query `rust` the result is
`A` before `B`, both with `match_count = 1`, and `C` excluded. -/
theorem match_ranking_stable_desc (db : List Member) (args : List String) :
    (sortMatches (findMatches db args)).Sorted matchLE
    ∧ (∀ c : Nat,
        (sortMatches (findMatches db args)).filter (fun m => m.match_count = c) =
          (findMatches db args).filter (fun m => m.match_count = c))
    ∧ (sortMatches (findMatches exDb ["rust"])).map
        (fun m => (m.member.name, m.match_count)) = [("A", 1), ("B", 1)] := by
  refine ⟨List.sorted_insertionSort matchLE _, ?_, by decide⟩
  intro c
  have hpair : (List.filter (fun m => m.match_count = c) (findMatches db args)).Pairwise
      matchLE := by
    apply List.pairwise_of_forall_mem_list
    intro a ha b hb
    have ha2 := (List.mem_filter.mp ha).2
    have hb2 := (List.mem_filter.mp hb).2
    have ha3 : a.match_count = c := by simpa using ha2
    have hb3 : b.match_count = c := by simpa using hb2
    unfold matchLE
    omega
  have hsub : (List.filter (fun m => m.match_count = c) (findMatches db args)).Sublist
      (sortMatches (findMatches db args)) :=
    List.sublist_insertionSort hpair (List.filter_sublist _)
  have hsub2 := hsub.filter (fun m => decide (m.match_count = c))
  rw [List.filter_filter] at hsub2
  have hfix : (List.filter (fun m => decide (m.match_count = c) && decide (m.match_count = c))
      (findMatches db args)) =
      List.filter (fun m => m.match_count = c) (findMatches db args) := by
    simp
  rw [hfix] at hsub2
  have hperm : ((sortMatches (findMatches db args)).filter
      (fun m => m.match_count = c)).Perm
      ((findMatches db args).filter (fun m => m.match_count = c)) :=
    (List.perm_insertionSort matchLE _).filter _
  exact (hsub2.eq_of_length hperm.length_eq.symm).symm

/-- C5: the first page carries ranks 1..3 over the first three ranked
matches, a "show more" request carries ranks 4..6 over the next three and
offers no further page, a "more" request with at most 3 matches yields the
explicit no-more signal instead of an empty page, and with exactly 5
matching members the "more" page holds exactly ranks 4 and 5. -/
theorem pagination_ranks (db : List Member) (args skills : List String) :
    (∀ entries b, find_member db args = .page entries b →
      entries.map Prod.fst =
          List.range' 1 ((sortMatches (findMatches db args)).take 3).length
        ∧ entries.map Prod.snd = (sortMatches (findMatches db args)).take 3
        ∧ entries.length ≤ 3
        ∧ b = decide (3 < (sortMatches (findMatches db args)).length))
    ∧ (∀ mp, show_more_members db skills = some mp →
        mp.entries.map Prod.fst =
            List.range' 4 (((sortMatches (findMatchesRaw db skills)).drop 3).take 3).length
          ∧ mp.entries.map Prod.snd =
              ((sortMatches (findMatchesRaw db skills)).drop 3).take 3
          ∧ mp.offersMore = false)
    ∧ ((sortMatches (findMatchesRaw db skills)).length ≤ 3 →
        show_more_members db skills = none)
    ∧ (show_more_members fiveDb ["x"]).map
          (fun mp => (mp.entries.map (fun e => (e.1, e.2.member.name)), mp.offersMore))
        = some ([(4, "M4"), (5, "M5")], false) := by
  refine ⟨?_, ?_, ?_, by decide⟩
  · intro entries b hpage
    unfold find_member at hpage
    by_cases hm : findMatches db args = []
    · simp [hm] at hpage
    · rw [if_neg hm] at hpage
      dsimp only at hpage
      obtain ⟨he, hb⟩ := FindResult.page.inj hpage
      subst he
      subst hb
      refine ⟨List.enumFrom_map_fst 1 _, List.enumFrom_map_snd 1 _, ?_, rfl⟩
      rw [List.enumFrom_length, List.length_take]
      omega
  · intro mp hmp
    unfold show_more_members at hmp
    by_cases hlen : (sortMatches (findMatchesRaw db skills)).length ≤ 3
    · rw [if_pos hlen] at hmp
      exact absurd hmp (by simp)
    · rw [if_neg hlen] at hmp
      have hmp2 := Option.some.inj hmp
      subst hmp2
      exact ⟨List.enumFrom_map_fst 4 _, List.enumFrom_map_snd 4 _, rfl⟩
  · intro hlen
    unfold show_more_members
    rw [if_pos hlen]

/-- Witness for C5 at the five-member roster and the query `x`. -/
theorem pagination_ranks_witness :
    (∀ entries b, find_member fiveDb ["x"] = .page entries b →
      entries.map Prod.fst =
          List.range' 1 ((sortMatches (findMatches fiveDb ["x"])).take 3).length
        ∧ entries.map Prod.snd = (sortMatches (findMatches fiveDb ["x"])).take 3
        ∧ entries.length ≤ 3
        ∧ b = decide (3 < (sortMatches (findMatches fiveDb ["x"])).length))
    ∧ (∀ mp, show_more_members fiveDb ["x"] = some mp →
        mp.entries.map Prod.fst =
            List.range' 4 (((sortMatches (findMatchesRaw fiveDb ["x"])).drop 3).take 3).length
          ∧ mp.entries.map Prod.snd =
              ((sortMatches (findMatchesRaw fiveDb ["x"])).drop 3).take 3
          ∧ mp.offersMore = false)
    ∧ ((sortMatches (findMatchesRaw fiveDb ["x"])).length ≤ 3 →
        show_more_members fiveDb ["x"] = none)
    ∧ (show_more_members fiveDb ["x"]).map
          (fun mp => (mp.entries.map (fun e => (e.1, e.2.member.name)), mp.offersMore))
        = some ([(4, "M4"), (5, "M5")], false) :=
  pagination_ranks fiveDb ["x"] ["x"]

/-- C6: when zero members match — in particular for an empty query skill
set, for every roster — the matcher returns the union of all roster
skills, lower-cased, deduplicated, and sorted alphabetically, rather than
a bare empty result. -/
theorem no_match_skill_fallback (db : List Member) (args : List String)
    (h : findMatches db args = []) :
    find_member db args = .noMatches (allSkillsSorted db)
    ∧ (∀ db2 : List Member, findMatches db2 [] = [])
    ∧ (allSkillsSorted db).Sorted strLE
    ∧ (allSkillsSorted db).Nodup
    ∧ (∀ s, s ∈ allSkillsSorted db ↔ ∃ m ∈ db, ∃ sk ∈ m.skills, pyLower sk = s) := by
  refine ⟨?_, ?_, List.sorted_insertionSort strLE _, ?_, ?_⟩
  · unfold find_member
    rw [if_pos h]
  · intro db2
    simp [findMatches, findMatchesRaw, matchingSkills]
  · exact (List.perm_insertionSort strLE _).nodup_iff.mpr (List.nodup_dedup _)
  · intro s
    simp only [allSkillsSorted, List.mem_insertionSort, List.mem_dedup, List.mem_flatMap,
      List.mem_map]

/-- Witness for C6 at the three-member example roster and the unmatched
query `zzz`. -/
theorem no_match_skill_fallback_witness :
    findMatches exDb ["zzz"] = []
    ∧ (find_member exDb ["zzz"] = .noMatches (allSkillsSorted exDb)
      ∧ (∀ db2 : List Member, findMatches db2 [] = [])
      ∧ (allSkillsSorted exDb).Sorted strLE
      ∧ (allSkillsSorted exDb).Nodup
      ∧ (∀ s, s ∈ allSkillsSorted exDb ↔ ∃ m ∈ exDb, ∃ sk ∈ m.skills, pyLower sk = s)) :=
  ⟨by decide, no_match_skill_fallback exDb ["zzz"] (by decide)⟩

/-! ### Helper lemmas for case-change invariance -/

theorem lowerSkills_eq_of_caseVariant {m₁ m₂ : Member} (h : caseVariant m₁ m₂) :
    m₁.lowerSkills = m₂.lowerSkills := by
  obtain ⟨hn, hs, hp, ha, ht, hw⟩ := h
  cases m₁
  cases m₂
  simp_all [Member.lowerSkills]

theorem matchingSkills_eq_of_caseVariant (s : List String) {m₁ m₂ : Member}
    (h : caseVariant m₁ m₂) : matchingSkills s m₁ = matchingSkills s m₂ := by
  unfold matchingSkills
  rw [h.2.1]

theorem findMatchesRaw_map_normalize {db₁ db₂ : List Member}
    (h : List.Forall₂ caseVariant db₁ db₂) (s : List String) :
    (findMatchesRaw db₁ s).map MatchResult.normalize =
      (findMatchesRaw db₂ s).map MatchResult.normalize := by
  induction h with
  | nil => rfl
  | cons hrel htail ih =>
    rename_i a b l₁ l₂
    unfold findMatchesRaw at ih ⊢
    rw [List.filterMap_cons, List.filterMap_cons]
    dsimp only
    have hms := matchingSkills_eq_of_caseVariant s hrel
    rw [hms]
    have hcount : (matchingSkills s b).length = (matchingSkills s b).length := rfl
    by_cases hnil : matchingSkills s b = []
    · rw [if_pos hnil, if_pos hnil]
      exact ih
    · rw [if_neg hnil, if_neg hnil]
      rw [List.map_cons, List.map_cons]
      congr 1
      simp only [MatchResult.normalize]
      rw [lowerSkills_eq_of_caseVariant hrel]

theorem allSkillsSorted_eq_of_caseVariant {db₁ db₂ : List Member}
    (h : List.Forall₂ caseVariant db₁ db₂) :
    allSkillsSorted db₁ = allSkillsSorted db₂ := by
  unfold allSkillsSorted
  congr 2
  induction h with
  | nil => rfl
  | cons hrel htail ih =>
    rw [List.flatMap_cons, List.flatMap_cons, hrel.2.1, ih]

theorem sortMatches_map_normalize (l : List MatchResult) :
    (sortMatches l).map MatchResult.normalize =
      sortMatches (l.map MatchResult.normalize) :=
  List.map_insertionSort matchLE matchLE MatchResult.normalize l
    (fun _ _ _ _ => Iff.rfl)

/-- C7: skill matching is case-insensitive: the outcome of `find_member`
(up to the letter case the member records store their own skills in) is
invariant under changing the letter case of any query skill or of any
member skill; in particular the query `RUST` matches a member whose skill
is stored as `rust`. -/
theorem skill_match_case_insensitive (db₁ db₂ : List Member) (args₁ args₂ : List String)
    (hargs : args₁.map pyLower = args₂.map pyLower)
    (hdb : List.Forall₂ caseVariant db₁ db₂) :
    (find_member db₁ args₁).normalize = (find_member db₂ args₂).normalize
    ∧ find_member [⟨"M", ["rust"], [], true, none, none⟩] ["RUST"] =
        .page [(1, ⟨⟨"M", ["rust"], [], true, none, none⟩, ["rust"], 1⟩)] false := by
  refine ⟨?_, by decide⟩
  have hfm : (findMatches db₁ args₁).map MatchResult.normalize =
      (findMatches db₂ args₂).map MatchResult.normalize := by
    unfold findMatches
    rw [hargs]
    exact findMatchesRaw_map_normalize hdb _
  have hlen : (findMatches db₁ args₁).length = (findMatches db₂ args₂).length := by
    have h2 := congrArg List.length hfm
    simpa using h2
  unfold find_member
  by_cases hnil : findMatches db₁ args₁ = []
  · have hnil2 : findMatches db₂ args₂ = [] := by
      rw [← List.length_eq_zero] at hnil ⊢
      omega
    rw [if_pos hnil, if_pos hnil2]
    dsimp only [FindResult.normalize]
    rw [allSkillsSorted_eq_of_caseVariant hdb]
  · have hnil2 : ¬findMatches db₂ args₂ = [] := by
      rw [← List.length_eq_zero] at hnil ⊢
      omega
    rw [if_neg hnil, if_neg hnil2]
    dsimp only [FindResult.normalize]
    have hsort : (sortMatches (findMatches db₁ args₁)).map MatchResult.normalize =
        (sortMatches (findMatches db₂ args₂)).map MatchResult.normalize := by
      rw [sortMatches_map_normalize, sortMatches_map_normalize, hfm]
    have hsortlen : (sortMatches (findMatches db₁ args₁)).length =
        (sortMatches (findMatches db₂ args₂)).length := by
      have h2 := congrArg List.length hsort
      simpa using h2
    have key : ∀ (n : ℕ) (l : List MatchResult),
        (List.enumFrom n l).map (fun e => (e.1, e.2.normalize)) =
          List.enumFrom n (l.map MatchResult.normalize) := by
      intro n l
      rw [List.enumFrom_map]
      rfl
    congr 1
    · rw [key, key, List.map_take, List.map_take, hsort]
    · rw [hsortlen]

/-- Witness for C7: the same member roster stored with skill `RUST` versus
`rust`, queried with `Rust` versus `rUsT`. -/
theorem skill_match_case_insensitive_witness :
    (["Rust"].map pyLower = ["rUsT"].map pyLower)
    ∧ List.Forall₂ caseVariant [⟨"M", ["RUST"], [], true, none, none⟩]
        [⟨"M", ["rust"], [], true, none, none⟩]
    ∧ ((find_member [⟨"M", ["RUST"], [], true, none, none⟩] ["Rust"]).normalize =
          (find_member [⟨"M", ["rust"], [], true, none, none⟩] ["rUsT"]).normalize
      ∧ find_member [⟨"M", ["rust"], [], true, none, none⟩] ["RUST"] =
          .page [(1, ⟨⟨"M", ["rust"], [], true, none, none⟩, ["rust"], 1⟩)] false) :=
  ⟨by decide,
    List.Forall₂.cons ⟨rfl, by decide, rfl, rfl, rfl, rfl⟩ List.Forall₂.nil,
    skill_match_case_insensitive _ _ _ _ (by decide)
      (List.Forall₂.cons ⟨rfl, by decide, rfl, rfl, rfl, rfl⟩ List.Forall₂.nil)⟩

end SuperteamVN
